import Mathlib

/-!
# Verification of the AsiaFilings data-pipeline ETL worker

Shallow embedding of the extraction worker, extraction engine, OCR queue
protocol and OCR worker found under `apps/data-pipeline/etl_worker/src/`,
together with theorems settling the spec claims about them.

Conventions of the embedding:
* Python `str` is Lean `String`; lengths are code-point counts
  (`String.length`), matching Python `len`.
* Python `dict`s that the source only ever reads through a fixed set of
  metadata keys are embedded as a structure of `Option String` fields.
* External collaborators (the Unicode category table, the PDF parser, the
  OCR model, S3, SQS, SHA-1) are parameters of the embedded functions; the
  object store is a set of object keys where claims only concern which
  objects exist.
* Python float ratio comparisons `a / n > 0.05` and `a / n > 0.10` are
  embedded as the exact integer comparisons `20 * a > n` and `10 * a > n`;
  for all string lengths representable in practice (`n < 2^53 / 20`) the
  IEEE-754 comparison agrees with the exact rational one.
-/

namespace AsiaFilings

/-! ## Python string primitives -/

/-- Characters stripped by Python `str.strip()` with no argument
(`Py_UNICODE_ISSPACE`). -/
def pyIsSpace (c : Char) : Bool :=
  c ∈ ([' ', '\t', '\n', '\r', '\x0b', '\x0c',
        '\x1c', '\x1d', '\x1e', '\x1f', '\u0085', '\u00a0',
        '\u1680', '\u2000', '\u2001', '\u2002', '\u2003', '\u2004',
        '\u2005', '\u2006', '\u2007', '\u2008', '\u2009', '\u200a',
        '\u2028', '\u2029', '\u202f', '\u205f', '\u3000'] : List Char)

/-- Python `text.strip()`: remove leading and trailing whitespace. -/
def pyStrip (s : String) : String :=
  String.mk (((s.data.dropWhile pyIsSpace).reverse.dropWhile pyIsSpace).reverse)

/-- Python `text.count(ch)` for a single-character needle. -/
def countChar (s : String) (c : Char) : Nat :=
  (s.data.filter (fun ch => ch = c)).length

/-- Python `s.lower()` (ASCII case mapping, all the source needs). -/
def strToLower (s : String) : String :=
  String.mk (s.data.map Char.toLower)

/-- Python `s.upper()` (ASCII case mapping, all the source needs). -/
def strToUpper (s : String) : String :=
  String.mk (s.data.map Char.toUpper)

/-- Python `s.endswith(suffix)`. -/
def strEndsWith (s suf : String) : Bool :=
  suf.data.isSuffixOf s.data

/-- Drop the last `n` characters of `s`. -/
def strDropRight (s : String) (n : Nat) : String :=
  String.mk (s.data.take (s.data.length - n))

/-- Helper for `pySplit`: accumulate the current field (reversed). -/
def pySplitAux (sep : Char) : List Char → List Char → List String
  | [], acc => [String.mk acc.reverse]
  | c :: rest, acc =>
    if c = sep then String.mk acc.reverse :: pySplitAux sep rest []
    else pySplitAux sep rest (c :: acc)

/-- Python `s.split(sep)` for a one-character separator: empty fields are
kept and `"".split(sep) == [""]`. -/
def pySplit (s : String) (sep : Char) : List String :=
  pySplitAux sep s.data []

/-- The path separator used by the S3-key parser. -/
def sepSlash : Char := Char.ofNat 47

/-! ## Extraction engine: gibberish detection (`extractor.is_gibberish`)

`unicodedata.category` is an external table; the embedding takes it as a
parameter `cat : Char → String`. -/

/-- Count of characters of `text` whose Unicode category (per the oracle
`cat`) is `Cc`, `Cn`, `Co` or `Cs`, excluding space, tab, LF and CR.
Mirrors the `bad_count` loop of `extractor.is_gibberish`. -/
def badCount (cat : Char → String) (text : String) : Nat :=
  (text.data.filter (fun ch =>
    ¬ (ch ∈ ([' ', '\t', '\n', '\r'] : List Char)) ∧
      cat ch ∈ (["Cc", "Cn", "Co", "Cs"] : List String))).length

/-- Embedding of `extractor.is_gibberish`.  The float thresholds `0.05` and `0.10` are
embedded as the exact comparisons `20 * count > total` and
`10 * count > total` (see the file header). -/
def is_gibberish (cat : Char → String) (text : String) : Bool :=
  if (pyStrip text).length < 20 then
    false
  else
    let total := text.length
    let replacement_count := countChar text '�'
    if 20 * replacement_count > total then
      true
    else if 10 * badCount cat text > total then
      true
    else
      false

/-- C5: the decision of the code expressed exactly as the spec phrases it. -/
def gibberishSpec (cat : Char → String) (text : String) : Prop :=
  20 ≤ (pyStrip text).length ∧
    (20 * countChar text '�' > text.length ∨
      10 * badCount cat text > text.length)

instance (cat : Char → String) (text : String) :
    Decidable (gibberishSpec cat text) := by
  unfold gibberishSpec
  infer_instance

/-- C5 (claim): `is_gibberish` returns false below the 20-char trimmed
length; otherwise it is true iff the replacement-char ratio exceeds 0.05 or
the bad-category ratio exceeds 0.10; the empty string is not gibberish. -/
theorem is_gibberish_spec (cat : Char → String) (text : String) :
    (is_gibberish cat text = true ↔ gibberishSpec cat text) ∧
      is_gibberish cat "" = false := by
  refine ⟨?_, rfl⟩
  unfold is_gibberish gibberishSpec
  split
  · rename_i hlt
    exact iff_of_false (by simp) (fun h => absurd h.1 (by omega))
  · rename_i hge
    push_neg at hge
    dsimp only
    split
    · rename_i hrep
      exact iff_of_true rfl ⟨hge, Or.inl hrep⟩
    · rename_i hrep
      split
      · rename_i hbad
        exact iff_of_true rfl ⟨hge, Or.inr hbad⟩
      · rename_i hbad
        exact iff_of_false (by simp) (fun h => h.2.elim hrep hbad)

/-! ## Extraction engine: S3-key metadata parsing
(`extractor.parse_s3_key_metadata`)

The source builds a Python dict; only the fixed metadata keys below are
ever written or read, so the dict is embedded as a structure of
`Option String` fields (`none` = key absent). -/

/-- Metadata dictionary with the keys used by the extraction pipeline. -/
structure Meta where
  exchange : Option String := none
  company_id : Option String := none
  company_name : Option String := none
  filing_date : Option String := none
  filing_type : Option String := none
  title : Option String := none
  source_id : Option String := none
  deriving Repr, DecidableEq

/-- Embedding of the `re.sub` call with pattern `\.(pdf|htm|html|doc|docx)$`
and `IGNORECASE` on `s3_key`: strip one trailing recognized extension,
case-insensitively. -/
def stripExt (key : String) : String :=
  let lower := strToLower key
  if strEndsWith lower ".html" then strDropRight key 5
  else if strEndsWith lower ".docx" then strDropRight key 5
  else if strEndsWith lower ".pdf" then strDropRight key 4
  else if strEndsWith lower ".htm" then strDropRight key 4
  else if strEndsWith lower ".doc" then strDropRight key 4
  else key

/-- Embedding of `extractor.parse_s3_key_metadata`.  For `len(parts) >= 6` the guarded
block `year, month, day = parts[-4], parts[-3], parts[-2]` followed by an
f-string can raise neither `ValueError` nor `IndexError`, so the
`except: pass` branch is dead and `filing_date` is always assigned. -/
def parse_s3_key_metadata (s3_key : String) : Meta :=
  let key_no_ext := stripExt s3_key
  let parts := pySplit key_no_ext sepSlash
  if 6 ≤ parts.length then
    { exchange := some (strToUpper (parts.getD (parts.length - 6) ""))
      company_id := some (parts.getD (parts.length - 5) "")
      filing_date := some ((parts.getD (parts.length - 4) "") ++ "-" ++
        (parts.getD (parts.length - 3) "") ++ "-" ++
        (parts.getD (parts.length - 2) ""))
      source_id := some (parts.getD (parts.length - 1) "") }
  else if 3 ≤ parts.length then
    { exchange := some (strToUpper (parts.getD (parts.length - 3) ""))
      company_id := some (parts.getD (parts.length - 2) "")
      source_id := some (parts.getD (parts.length - 1) "") }
  else if 1 ≤ parts.length then
    { source_id := some (parts.getD (parts.length - 1) "") }
  else
    {}

/-- A numeric path component in the sense of the spec (`skip if
non-numeric triple`): non-empty and all decimal digits. -/
def isDigits (s : String) : Bool :=
  0 < s.length ∧ s.data.all (fun c => c.isDigit)

/-- C9 counterexample: for the ≥6-part key `ex/c0001/aa/bb/cc/doc1.pdf`
the date triple `(aa, bb, cc)` is non-numeric, yet the parser still sets
`filing_date = "aa-bb-cc"` — the claim says the field is omitted for a
non-numeric triple. -/
theorem parse_s3_key_nonnumeric_date_kept :
    (parse_s3_key_metadata "ex/c0001/aa/bb/cc/doc1.pdf").filing_date =
        some "aa-bb-cc" ∧
      isDigits "aa" = false ∧ isDigits "bb" = false ∧
      isDigits "cc" = false := by
  refine ⟨?_, by decide, by decide, by decide⟩
  rfl

/-- C9 (amended): with >= 6 slash-separated parts after extension
stripping, the parser returns `exchange = parts[-6].upper()`,
`company_id = parts[-5]`, `source_id = parts[-1]`, and **always** sets
`filing_date = "{parts[-4]}-{parts[-3]}-{parts[-2]}"`, whether or not the
triple is numeric (the numeric check claimed by the spec is absent from
the code). -/
theorem parse_s3_key_six_parts (s3_key : String) (parts : List String)
    (hp : pySplit (stripExt s3_key) sepSlash = parts)
    (h : 6 ≤ parts.length) :
    parse_s3_key_metadata s3_key =
      { exchange := some (strToUpper (parts.getD (parts.length - 6) ""))
        company_id := some (parts.getD (parts.length - 5) "")
        filing_date := some ((parts.getD (parts.length - 4) "") ++ "-" ++
          (parts.getD (parts.length - 3) "") ++ "-" ++
          (parts.getD (parts.length - 2) ""))
        source_id := some (parts.getD (parts.length - 1) "") } := by
  unfold parse_s3_key_metadata
  dsimp only
  rw [hp, if_pos h]

/-- Witness for `parse_s3_key_six_parts` at a concrete key. -/
theorem parse_s3_key_six_parts_witness :
    pySplit (stripExt "dart/00555/2024/01/02/report9.PDF") sepSlash =
        ["dart", "00555", "2024", "01", "02", "report9"] ∧
      6 ≤ (["dart", "00555", "2024", "01", "02", "report9"] :
        List String).length ∧
      parse_s3_key_metadata "dart/00555/2024/01/02/report9.PDF" =
        { exchange := some "DART"
          company_id := some "00555"
          filing_date := some "2024-01-02"
          source_id := some "report9" } :=
  ⟨by decide, by decide,
    parse_s3_key_six_parts "dart/00555/2024/01/02/report9.PDF"
      ["dart", "00555", "2024", "01", "02", "report9"]
      (by decide) (by decide)⟩

/-! ## Extraction engine: OnnxTR bounding-box transform
(`extractor._extract_with_onnxtr`, lines 194-225)

Python floats are embedded as exact rationals; `round(x, 1)` is the Python
round-half-to-even at one decimal. -/

/-- Round-half-to-even to an integer (Python `round(x)` semantics). -/
def rhe (q : ℚ) : ℤ :=
  if q - (⌊q⌋ : ℚ) < 1 / 2 then ⌊q⌋
  else if 1 / 2 < q - (⌊q⌋ : ℚ) then ⌊q⌋ + 1
  else if ⌊q⌋ % 2 = 0 then ⌊q⌋ else ⌊q⌋ + 1

/-- Python `round(x, 1)`: round-half-to-even at one decimal place. -/
def pyRound1 (q : ℚ) : ℚ :=
  (rhe (10 * q) : ℚ) / 10

theorem rhe_ge_floor (q : ℚ) : ⌊q⌋ ≤ rhe q := by
  unfold rhe
  split_ifs <;> omega

theorem rhe_le_floor_add_one (q : ℚ) : rhe q ≤ ⌊q⌋ + 1 := by
  unfold rhe
  split_ifs <;> omega

theorem rhe_mono {x y : ℚ} (h : x ≤ y) : rhe x ≤ rhe y := by
  rcases lt_or_le ⌊x⌋ ⌊y⌋ with hf | hf
  · calc rhe x ≤ ⌊x⌋ + 1 := rhe_le_floor_add_one x
      _ ≤ ⌊y⌋ := by omega
      _ ≤ rhe y := rhe_ge_floor y
  · have hfe : ⌊x⌋ = ⌊y⌋ := le_antisymm (Int.floor_le_floor h) hf
    have hr : x - (⌊y⌋ : ℚ) ≤ y - (⌊y⌋ : ℚ) := by linarith
    unfold rhe
    rw [hfe]
    split_ifs <;> first | omega | linarith

theorem rhe_zero : rhe 0 = 0 := by
  have h0 : ⌊(0 : ℚ)⌋ = 0 := Int.floor_zero
  unfold rhe
  rw [h0]
  norm_num

theorem pyRound1_mono {x y : ℚ} (h : x ≤ y) : pyRound1 x ≤ pyRound1 y := by
  unfold pyRound1
  have hz : rhe (10 * x) ≤ rhe (10 * y) := rhe_mono (by linarith)
  have hc : ((rhe (10 * x) : ℚ)) ≤ ((rhe (10 * y) : ℚ)) := by exact_mod_cast hz
  linarith

theorem pyRound1_zero : pyRound1 0 = 0 := by
  unfold pyRound1
  rw [show (10 : ℚ) * 0 = 0 by ring, rhe_zero]
  norm_num

/-- One emitted bounding-box entry (`{x0, y0, x1, y1, word}`). -/
structure BBoxOut where
  x0 : ℚ
  y0 : ℚ
  x1 : ℚ
  y1 : ℚ
  word : String
  deriving Repr, DecidableEq

/-- One OCR word as returned by the provider: recognized text plus the two
normalized geometry corners `((x0n, y0n), (x1n, y1n))`.  The source skips
entries whose geometry is missing or not a pair; the pair type makes that
guard vacuous here. -/
def OcrWord : Type := String × (ℚ × ℚ) × (ℚ × ℚ)

/-- The body of the bounding-box loop of `extractor._extract_with_onnxtr`
for one word: scale the normalized coordinates by the page size, swap to
order each pair, clamp into the page rectangle and round to one decimal;
a word that is empty after `strip()` yields nothing (`continue`). -/
def onnxtrBox1 (page_width page_height : ℚ) (w : OcrWord) :
    Option BBoxOut :=
  let value := pyStrip w.1
  if value = "" then none
  else
    let x0 := w.2.1.1 * page_width
    let y0 := w.2.1.2 * page_height
    let x1 := w.2.2.1 * page_width
    let y1 := w.2.2.2 * page_height
    let px := if x1 < x0 then (x1, x0) else (x0, x1)
    let py := if y1 < y0 then (y1, y0) else (y0, y1)
    some { x0 := pyRound1 (max 0 px.1)
           y0 := pyRound1 (max 0 py.1)
           x1 := pyRound1 (min page_width px.2)
           y1 := pyRound1 (min page_height py.2)
           word := value }

/-- The bounding-box loop of `extractor._extract_with_onnxtr` over all
words of a page result. -/
def onnxtrBBoxes (page_width page_height : ℚ) (words : List OcrWord) :
    List BBoxOut :=
  words.filterMap (onnxtrBox1 page_width page_height)

/-- Evaluation `round(595.27, 1) = 595.3` in exact arithmetic. -/
theorem pyRound1_59527 : pyRound1 (59527 / 100 : ℚ) = 5953 / 10 := by
  have hf : ⌊(10 * (59527 / 100 : ℚ))⌋ = 5952 := by
    rw [Int.floor_eq_iff]
    norm_num
  unfold pyRound1 rhe
  rw [hf]
  rw [if_neg (by norm_num), if_pos (by norm_num)]
  norm_num

/-- Evaluation `round(100.0, 1) = 100.0`. -/
theorem pyRound1_100 : pyRound1 (100 : ℚ) = 100 := by
  have hf : ⌊(10 * (100 : ℚ))⌋ = 1000 := by
    rw [Int.floor_eq_iff]
    norm_num
  unfold pyRound1 rhe
  rw [hf]
  rw [if_pos (by norm_num)]
  norm_num

/-- C8 counterexample: on a page of width `595.27` points (A4), the word
spanning the whole page has `x1 = min(page_w, 1.0 * page_w) = 595.27`,
which `round(·, 1)` rounds **up** to `595.3 > page_w`; the claimed bound
`x1 ≤ page_w` fails because the code rounds after clamping. -/
theorem onnxtr_bbox_round_exceeds_width :
    onnxtrBBoxes (59527 / 100) 100 [("A", ((0, 0), (1, 1)))] =
        [{ x0 := 0, y0 := 0, x1 := 5953 / 10, y1 := 100, word := "A" }] ∧
      ¬ ((5953 / 10 : ℚ) ≤ 59527 / 100) := by
  have hstrip : pyStrip "A" = "A" := by decide
  have hone : onnxtrBox1 (59527 / 100) 100 ("A", ((0, 0), (1, 1))) =
      some { x0 := 0, y0 := 0, x1 := 5953 / 10, y1 := 100, word := "A" } := by
    simp only [onnxtrBox1, hstrip]
    rw [if_neg (by decide : ¬ ("A" : String) = "")]
    norm_num [pyRound1_zero, pyRound1_59527, pyRound1_100]
  constructor
  · simp only [onnxtrBBoxes, List.filterMap_cons, List.filterMap_nil, hone]
  · norm_num

/-- Bounds for one rounded, clamped, ordered coordinate pair. -/
theorem round_pair_bounds {w p1 p2 : ℚ} (h0 : 0 ≤ p1) (h12 : p1 ≤ p2)
    (h2w : p2 ≤ w) :
    0 ≤ pyRound1 (max 0 p1) ∧
      pyRound1 (max 0 p1) ≤ pyRound1 (min w p2) ∧
      pyRound1 (min w p2) ≤ pyRound1 w := by
  rw [max_eq_right h0, min_eq_right h2w]
  refine ⟨?_, pyRound1_mono h12, pyRound1_mono h2w⟩
  have h := pyRound1_mono h0
  rwa [pyRound1_zero] at h

/-- C8 (amended): for normalized provider coordinates in `[0,1]` and a
nonnegative page size, every emitted bounding box satisfies
`0 ≤ x0 ≤ x1 ≤ round(page_w, 1)` and `0 ≤ y0 ≤ y1 ≤ round(page_h, 1)` —
the upper bound is the one-decimal rounding of the page dimension (which
can exceed the dimension itself by < 0.05) — and entries whose word trims
to the empty string are dropped. -/
theorem onnxtr_bbox_bounds (w h : ℚ) (hw : 0 ≤ w) (hh : 0 ≤ h)
    (words : List OcrWord)
    (hnorm : ∀ e ∈ words,
      0 ≤ e.2.1.1 ∧ e.2.1.1 ≤ 1 ∧ 0 ≤ e.2.1.2 ∧ e.2.1.2 ≤ 1 ∧
        0 ≤ e.2.2.1 ∧ e.2.2.1 ≤ 1 ∧ 0 ≤ e.2.2.2 ∧ e.2.2.2 ≤ 1) :
    ∀ b ∈ onnxtrBBoxes w h words,
      (0 ≤ b.x0 ∧ b.x0 ≤ b.x1 ∧ b.x1 ≤ pyRound1 w) ∧
        (0 ≤ b.y0 ∧ b.y0 ≤ b.y1 ∧ b.y1 ≤ pyRound1 h) ∧
        b.word ≠ "" := by
  intro b hb
  rw [onnxtrBBoxes, List.mem_filterMap] at hb
  obtain ⟨e, he, hbe⟩ := hb
  obtain ⟨h1, h2, h3, h4, h5, h6, h7, h8⟩ := hnorm e he
  simp only [onnxtrBox1] at hbe
  by_cases hv : pyStrip e.1 = ""
  · rw [if_pos hv] at hbe
    exact absurd hbe (by simp)
  · rw [if_neg hv] at hbe
    rw [Option.some.injEq] at hbe
    subst hbe
    have hx00 : 0 ≤ e.2.1.1 * w := mul_nonneg h1 hw
    have hx0w : e.2.1.1 * w ≤ w := mul_le_of_le_one_left hw h2
    have hx10 : 0 ≤ e.2.2.1 * w := mul_nonneg h5 hw
    have hx1w : e.2.2.1 * w ≤ w := mul_le_of_le_one_left hw h6
    have hy00 : 0 ≤ e.2.1.2 * h := mul_nonneg h3 hh
    have hy0h : e.2.1.2 * h ≤ h := mul_le_of_le_one_left hh h4
    have hy10 : 0 ≤ e.2.2.2 * h := mul_nonneg h7 hh
    have hy1h : e.2.2.2 * h ≤ h := mul_le_of_le_one_left hh h8
    refine ⟨?_, ?_, hv⟩
    · dsimp only
      split_ifs with hsw
      · dsimp only
        exact round_pair_bounds hx10 (le_of_lt hsw) hx0w
      · dsimp only
        exact round_pair_bounds hx00 (not_lt.mp hsw) hx1w
    · dsimp only
      split_ifs with hsw
      · dsimp only
        exact round_pair_bounds hy10 (le_of_lt hsw) hy0h
      · dsimp only
        exact round_pair_bounds hy00 (not_lt.mp hsw) hy1h

/-- Witness for `onnxtr_bbox_bounds` at a concrete page and word list. -/
theorem onnxtr_bbox_bounds_witness :
    (0 : ℚ) ≤ 10 ∧ (0 : ℚ) ≤ 20 ∧
      (∀ e ∈ ([("hi", ((0, 0), (1, 1)))] : List OcrWord),
        0 ≤ e.2.1.1 ∧ e.2.1.1 ≤ 1 ∧ 0 ≤ e.2.1.2 ∧ e.2.1.2 ≤ 1 ∧
          0 ≤ e.2.2.1 ∧ e.2.2.1 ≤ 1 ∧ 0 ≤ e.2.2.2 ∧ e.2.2.2 ≤ 1) ∧
      (∀ b ∈ onnxtrBBoxes 10 20 [("hi", ((0, 0), (1, 1)))],
        (0 ≤ b.x0 ∧ b.x0 ≤ b.x1 ∧ b.x1 ≤ pyRound1 10) ∧
          (0 ≤ b.y0 ∧ b.y0 ≤ b.y1 ∧ b.y1 ≤ pyRound1 20) ∧
          b.word ≠ "") :=
  ⟨by norm_num, by norm_num,
    by
      intro e he
      rw [List.mem_singleton] at he
      subst he
      norm_num,
    onnxtr_bbox_bounds 10 20 (by norm_num) (by norm_num)
      [("hi", ((0, 0), (1, 1)))]
      (by
        intro e he
        rw [List.mem_singleton] at he
        subst he
        norm_num)⟩

/-! ## Extraction engine: per-page PDF extraction
(`extractor._extract_page_text`, `extractor.process_pdf_bytes`)

The PDF parser is external: a successfully opened document is its list of
per-page text layers (`page.get_text("text")`), a failed open is the
exception message.  The OnnxTR subroutine is an oracle from page number to
`none` (exception) or the recognized text and boxes.  The side-effecting
metric emission and the per-page bbox upload in `process_pdf_bytes` touch
no returned value and are not modelled here (uploads are modelled where
the claims need them, in the OCR worker). -/

/-- The dict returned by `_extract_page_text` / `_extract_with_onnxtr`:
`ocr_bboxes := none` models the key being absent. -/
structure PageExtraction where
  text : String
  ocr_required : Bool
  ocr_bboxes : Option (List BBoxOut)
  deriving DecidableEq

/-- Embedding of `extractor._extract_page_text`: keep non-gibberish text; defer OCR
(empty text) when inline OCR is disabled; otherwise run the OCR oracle,
falling back to the original gibberish text when it raises. -/
def extract_page_text (cat : Char → String)
    (onnx : Option (String × List BBoxOut)) (text : String)
    (enable_inline_ocr : Bool) : PageExtraction :=
  if ¬ is_gibberish cat text then
    { text := text, ocr_required := false, ocr_bboxes := none }
  else if ¬ enable_inline_ocr then
    { text := "", ocr_required := true, ocr_bboxes := some [] }
  else
    match onnx with
    | some r => { text := r.1, ocr_required := true, ocr_bboxes := some r.2 }
    | none => { text := text, ocr_required := true, ocr_bboxes := some [] }

/-- A PageRecord as built by `process_pdf_bytes`; the six optional
metadata keys are only present when their merged value is truthy. -/
structure PageRecord where
  unique_page_id : String
  document_id : String
  page_number : Nat
  total_pages : Nat
  text : String
  ocr_required : Bool
  s3_key : String
  file_type : String
  exchange : Option String := none
  company_id : Option String := none
  company_name : Option String := none
  filing_date : Option String := none
  filing_type : Option String := none
  title : Option String := none
  deriving DecidableEq

/-- Python truthiness filter on an optional string value. -/
def truthyOpt : Option String → Option String
  | some v => if v = "" then none else some v
  | none => none

/-- One field of `dict.update`: the overlay value wins when present. -/
def updField (b o : Option String) : Option String :=
  match o with
  | some v => some v
  | none => b

/-- Embedding of the update of merged_meta with the truthy items of
metadata: only truthy overlay fields win. -/
def metaUpdateTruthy (base overlay : Meta) : Meta where
  exchange := updField base.exchange (truthyOpt overlay.exchange)
  company_id := updField base.company_id (truthyOpt overlay.company_id)
  company_name := updField base.company_name (truthyOpt overlay.company_name)
  filing_date := updField base.filing_date (truthyOpt overlay.filing_date)
  filing_type := updField base.filing_type (truthyOpt overlay.filing_type)
  title := updField base.title (truthyOpt overlay.title)
  source_id := updField base.source_id (truthyOpt overlay.source_id)

/-- Plain `dict.update`: overlay fields win whenever the key is present,
truthy or not. -/
def metaUpdate (base overlay : Meta) : Meta where
  exchange := updField base.exchange overlay.exchange
  company_id := updField base.company_id overlay.company_id
  company_name := updField base.company_name overlay.company_name
  filing_date := updField base.filing_date overlay.filing_date
  filing_type := updField base.filing_type overlay.filing_type
  title := updField base.title overlay.title
  source_id := updField base.source_id overlay.source_id

/-- The merged metadata of `process_pdf_bytes` (and `process_html_bytes`):
parsed S3-key metadata, overlaid by truthy caller metadata, then the
truthy `exchange` and `document_id` parameter overrides. -/
def pdfMergedMeta (s3_key : Option String) (exchange document_id : Option String)
    (metadata : Option Meta) : Meta :=
  let key_metadata := match s3_key with
    | some k => parse_s3_key_metadata k
    | none => {}
  let m1 := match metadata with
    | some m => metaUpdateTruthy key_metadata m
    | none => key_metadata
  let m2 := match truthyOpt exchange with
    | some e => { m1 with exchange := some e }
    | none => m1
  match truthyOpt document_id with
  | some d => { m2 with source_id := some d }
  | none => m2

/-- The dot separator used by the rsplit of filenames. -/
def sepDot : Char := Char.ofNat 46

/-- Python `sep.join(xs)`. -/
def strJoin (sep : String) : List String → String
  | [] => ""
  | [s] => s
  | s :: rest => s ++ sep ++ strJoin sep rest

/-- Python rsplit on the last dot, first component: everything before
the last dot, or the whole string when it has no dot. -/
def fnameBase (fn : String) : String :=
  let parts := pySplit fn sepDot
  if parts.length ≤ 1 then fn else strJoin "." parts.dropLast

/-- Embedding of: doc_id is the source_id entry of merged_meta when
truthy, else the filename with its last extension removed. -/
def docIdOf (m : Meta) (filename : String) : String :=
  match truthyOpt m.source_id with
  | some s => s
  | none => fnameBase filename

/-- One `result_page` dict of `process_pdf_bytes`. -/
def buildPdfRecord (exch doc_id : String) (s3_key : Option String)
    (total_pages : Nat) (merged : Meta) (page_num : Nat)
    (extraction : PageExtraction) : PageRecord where
  unique_page_id :=
    if exch = "" then doc_id ++ "_pg" ++ toString page_num
    else exch ++ "_" ++ doc_id ++ "_pg" ++ toString page_num
  document_id := doc_id
  page_number := page_num
  total_pages := total_pages
  text := extraction.text
  ocr_required := extraction.ocr_required
  s3_key := s3_key.getD ""
  file_type := "pdf"
  exchange := truthyOpt merged.exchange
  company_id := truthyOpt merged.company_id
  company_name := truthyOpt merged.company_name
  filing_date := truthyOpt merged.filing_date
  filing_type := truthyOpt merged.filing_type
  title := truthyOpt merged.title

/-- The page loop of `process_pdf_bytes`
(`for page_num, page in enumerate(doc, start=1)`): returns the built
records and the `broken_pages` list. -/
def pdfPagesLoop (cat : Char → String)
    (onnx : Nat → Option (String × List BBoxOut)) (exch doc_id : String)
    (s3_key : Option String) (total_pages : Nat) (merged : Meta)
    (inline : Bool) : Nat → List String → List PageRecord × List Nat
  | _, [] => ([], [])
  | page_num, text :: rest =>
    let extraction := extract_page_text cat (onnx page_num) text inline
    let page := buildPdfRecord exch doc_id s3_key total_pages merged page_num
      extraction
    let tail := pdfPagesLoop cat onnx exch doc_id s3_key total_pages merged
      inline (page_num + 1) rest
    (page :: tail.1,
      (if extraction.ocr_required then [page_num] else []) ++ tail.2)

/-- Embedding of `extractor.process_pdf_bytes`: returns
`(page_records, error_or_none, broken_pages)`.  `pdf` is the outcome of
`pymupdf.open` (`.error e` = exception).  `enable_inline_ocr` is the
resolved flag (`_ENABLE_INLINE_OCR` when the argument is `None`). -/
def process_pdf_bytes (cat : Char → String)
    (onnx : Nat → Option (String × List BBoxOut))
    (pdf : Except String (List String)) (filename : String)
    (s3_key : Option String) (exchange document_id : Option String)
    (metadata : Option Meta) (enable_inline_ocr : Bool) :
    List PageRecord × Option String × List Nat :=
  let merged := pdfMergedMeta s3_key exchange document_id metadata
  let doc_id := docIdOf merged filename
  match pdf with
  | .error e => ([], some e, [])
  | .ok texts =>
    let total_pages := texts.length
    let exch := merged.exchange.getD ""
    let x := pdfPagesLoop cat onnx exch doc_id s3_key total_pages merged
      enable_inline_ocr 1 texts
    (x.1, none, x.2)

/-- On the deferred-OCR path (inline OCR disabled) a page marked
`ocr_required` always carries empty text. -/
theorem extract_page_text_deferred (cat : Char → String)
    (onnx : Option (String × List BBoxOut)) (text : String) :
    (extract_page_text cat onnx text false).ocr_required = true →
      (extract_page_text cat onnx text false).text = "" := by
  unfold extract_page_text
  split
  · intro h
    exact absurd h (by simp)
  · intro h
    simp

/-- Invariant of the page loop of `process_pdf_bytes`: every record built
with page numbers counted from `page_num` over the remaining pages is
well-formed. -/
theorem pdfPagesLoop_invariant (cat : Char → String)
    (onnx : Nat → Option (String × List BBoxOut)) (exch doc_id : String)
    (s3_key : Option String) (total : Nat) (merged : Meta) (inline : Bool) :
    ∀ (page_num : Nat) (texts : List String), 1 ≤ page_num →
      page_num + texts.length ≤ total + 1 →
      ∀ r ∈ (pdfPagesLoop cat onnx exch doc_id s3_key total merged inline
        page_num texts).1,
        1 ≤ r.page_number ∧ r.page_number ≤ r.total_pages ∧
          r.total_pages = total ∧ r.document_id = doc_id ∧
          r.unique_page_id = (if exch = "" then
              doc_id ++ "_pg" ++ toString r.page_number
            else exch ++ "_" ++ doc_id ++ "_pg" ++ toString r.page_number) ∧
          (inline = false → r.ocr_required = true → r.text = "") := by
  intro page_num texts
  induction texts generalizing page_num with
  | nil =>
    intro _ _ r hr
    simp [pdfPagesLoop] at hr
  | cons t rest ih =>
    intro h1 h2 r hr
    simp only [pdfPagesLoop] at hr
    rw [List.mem_cons] at hr
    rcases hr with hr | hr
    · subst hr
      refine ⟨h1, ?_, rfl, rfl, rfl, ?_⟩
      · have : page_num ≤ total := by
          have := h2
          simp [List.length_cons] at this
          omega
        exact this
      · intro hin hocr
        subst hin
        exact extract_page_text_deferred cat (onnx page_num) t hocr
    · exact ih (page_num + 1) (by omega)
        (by
          rw [List.length_cons] at h2
          omega) r hr

/-- C4: every PageRecord emitted by the PDF extraction path satisfies
`1 ≤ page_number ≤ total_pages`; its `unique_page_id` is
`"{EXCHANGE}_{document_id}_pg{page_number}"` when the merged exchange is
known and `"{document_id}_pg{page_number}"` otherwise; and on the primary
(extraction-worker) pipeline — inline OCR disabled — `ocr_required = true`
implies empty text. -/
theorem pdf_page_record_invariants (cat : Char → String)
    (onnx : Nat → Option (String × List BBoxOut)) (texts : List String)
    (filename : String) (s3_key : Option String)
    (exchange document_id : Option String) (metadata : Option Meta)
    (r : PageRecord)
    (hr : r ∈ (process_pdf_bytes cat onnx (.ok texts) filename s3_key
      exchange document_id metadata false).1) :
    1 ≤ r.page_number ∧ r.page_number ≤ r.total_pages ∧
      r.unique_page_id =
        (if (pdfMergedMeta s3_key exchange document_id
            metadata).exchange.getD "" = "" then
          r.document_id ++ "_pg" ++ toString r.page_number
        else (pdfMergedMeta s3_key exchange document_id
            metadata).exchange.getD "" ++ "_" ++ r.document_id ++ "_pg" ++
          toString r.page_number) ∧
      (r.ocr_required = true → r.text = "") := by
  simp only [process_pdf_bytes] at hr
  have h := pdfPagesLoop_invariant cat onnx
    ((pdfMergedMeta s3_key exchange document_id metadata).exchange.getD "")
    (docIdOf (pdfMergedMeta s3_key exchange document_id metadata) filename)
    s3_key texts.length (pdfMergedMeta s3_key exchange document_id metadata)
    false 1 texts (by omega) (by omega) r hr
  obtain ⟨ha, hb, -, hd, he, hf⟩ := h
  refine ⟨ha, hb, ?_, hf rfl⟩
  rw [he, hd]

/-- Concrete record for the `pdf_page_record_invariants` witness: the
single gibberish page of a one-page PDF on the deferred-OCR path. -/
def c4rec : PageRecord where
  unique_page_id := "HKEX_doc7_pg1"
  document_id := "doc7"
  page_number := 1
  total_pages := 1
  text := ""
  ocr_required := true
  s3_key := ""
  file_type := "pdf"
  exchange := some "HKEX"

/-- Witness for `pdf_page_record_invariants` on a concrete one-page PDF
whose text is all private-use codepoints (category `Co`). -/
theorem pdf_page_record_invariants_witness :
    c4rec ∈ (process_pdf_bytes (fun _ => "Co") (fun _ => none)
        (.ok ["xxxxxxxxxxxxxxxxxxxxxxxxx"]) "doc7.pdf" none (some "HKEX")
        (some "doc7") none false).1 ∧
      (1 ≤ c4rec.page_number ∧ c4rec.page_number ≤ c4rec.total_pages ∧
        c4rec.unique_page_id =
          (if (pdfMergedMeta none (some "HKEX") (some "doc7")
              none).exchange.getD "" = "" then
            c4rec.document_id ++ "_pg" ++ toString c4rec.page_number
          else (pdfMergedMeta none (some "HKEX") (some "doc7")
              none).exchange.getD "" ++ "_" ++ c4rec.document_id ++ "_pg" ++
            toString c4rec.page_number) ∧
        (c4rec.ocr_required = true → c4rec.text = "")) :=
  ⟨by decide,
    pdf_page_record_invariants (fun _ => "Co") (fun _ => none)
      ["xxxxxxxxxxxxxxxxxxxxxxxxx"] "doc7.pdf" none (some "HKEX")
      (some "doc7") none c4rec (by decide)⟩

/-! ## Extraction worker: JSONL output sharding
(`main.process_batch` lines 213-237 and `s3_utils.upload_jsonl`)

`json.dumps(page)` is external; the chunking loop is embedded over the
serialized lines `lines = [json.dumps(p) for p in all_pages]` with the
serializer a parameter.  `upload_jsonl` uploads the payload
the newline join of the lines, encoded as UTF-8. -/

/-- UTF-8 byte length of a string (the len of the UTF-8 encoding): sum of the
per-character UTF-8 sizes. -/
def utf8Len (s : String) : Nat :=
  (s.data.map Char.utf8Size).sum

/-- Embedding of line_bytes: the UTF-8 byte count of the line plus one
for the newline. -/
def lineBytes (line : String) : Nat :=
  utf8Len line + 1

/-- The `chunk_bytes` counter as maintained by the loop: the sum of `lineBytes` over
the lines of the current chunk. -/
def sumLineBytes (chunk : List String) : Nat :=
  (chunk.map lineBytes).sum

/-- The `max_bytes = 10 * 1024 * 1024` constant. -/
def maxShardBytes : Nat := 10 * 1024 * 1024

/-- The shard-upload loop of `process_batch`: walk the serialized lines,
flushing the accumulated `chunk` (with the current `part` index) whenever
appending the next line would push `chunk_bytes` over `maxB`, then flush
the final non-empty chunk.  Returns the uploaded
`(part index, chunk lines)` pairs in upload order. -/
def shardLoop (maxB : Nat) : List String → List String → Nat → Nat →
    List (Nat × List String)
  | [], chunk, _, part => if chunk = [] then [] else [(part, chunk)]
  | l :: rest, chunk, chunkBytes, part =>
    if chunk ≠ [] ∧ chunkBytes + lineBytes l > maxB then
      (part, chunk) :: shardLoop maxB rest [l] (lineBytes l) (part + 1)
    else
      shardLoop maxB rest (chunk ++ [l]) (chunkBytes + lineBytes l) part

theorem utf8Len_append (a b : String) :
    utf8Len (a ++ b) = utf8Len a + utf8Len b := by
  simp [utf8Len, String.data_append]

/-- The bytes of the newline-join payload of a non-empty chunk are one
less than its `chunk_bytes` accounting. -/
theorem utf8Len_joinNL (chunk : List String) (h : chunk ≠ []) :
    utf8Len (strJoin "\n" chunk) + 1 = sumLineBytes chunk := by
  induction chunk with
  | nil => exact absurd rfl h
  | cons s rest ih =>
    cases rest with
    | nil =>
      simp [strJoin, sumLineBytes, lineBytes]
    | cons b bs =>
      have hne : b :: bs ≠ [] := by simp
      have hj : strJoin "\n" (s :: b :: bs) =
          s ++ "\n" ++ strJoin "\n" (b :: bs) := rfl
      have hnl : utf8Len "\n" = 1 := rfl
      calc utf8Len (strJoin "\n" (s :: b :: bs)) + 1
          = utf8Len s + 1 + utf8Len (strJoin "\n" (b :: bs)) + 1 := by
            rw [hj, utf8Len_append, utf8Len_append, hnl]
        _ = (utf8Len s + 1) + (utf8Len (strJoin "\n" (b :: bs)) + 1) := by
            omega
        _ = (utf8Len s + 1) + sumLineBytes (b :: bs) := by rw [ih hne]
        _ = sumLineBytes (s :: b :: bs) := by
            simp only [sumLineBytes, List.map_cons, List.sum_cons, lineBytes]

/-- The part indices emitted by `shardLoop` are consecutive from the
starting `part`. -/
theorem shardLoop_parts (maxB : Nat) :
    ∀ (lines chunk : List String) (chunkBytes part : Nat),
      (shardLoop maxB lines chunk chunkBytes part).map Prod.fst =
        List.range' part
          (shardLoop maxB lines chunk chunkBytes part).length := by
  intro lines
  induction lines with
  | nil =>
    intro chunk chunkBytes part
    by_cases h : chunk = []
    · simp [shardLoop, h]
    · simp [shardLoop, h, List.range']
  | cons l rest ih =>
    intro chunk chunkBytes part
    by_cases h : chunk ≠ [] ∧ chunkBytes + lineBytes l > maxB
    · simp only [shardLoop, if_pos h, List.map_cons, List.length_cons,
        List.range']
      rw [ih]
    · simp only [shardLoop, if_neg h]
      exact ih (chunk ++ [l]) (chunkBytes + lineBytes l) part

/-- Size invariant of `shardLoop`: provided the accumulator is accounted
correctly and respects the bound whenever it holds at least two lines,
every emitted chunk with at least two lines fits in `maxB` bytes. -/
theorem shardLoop_chunk_le (maxB : Nat) :
    ∀ (lines chunk : List String) (chunkBytes part : Nat),
      chunkBytes = sumLineBytes chunk →
      (2 ≤ chunk.length → chunkBytes ≤ maxB) →
      ∀ pc ∈ shardLoop maxB lines chunk chunkBytes part,
        2 ≤ pc.2.length → sumLineBytes pc.2 ≤ maxB := by
  intro lines
  induction lines with
  | nil =>
    intro chunk chunkBytes part hacc hbound pc hpc hlen
    by_cases h : chunk = []
    · simp [shardLoop, h] at hpc
    · simp only [shardLoop, if_neg h, List.mem_singleton] at hpc
      subst hpc
      rw [← hacc]
      exact hbound hlen
  | cons l rest ih =>
    intro chunk chunkBytes part hacc hbound pc hpc hlen
    by_cases h : chunk ≠ [] ∧ chunkBytes + lineBytes l > maxB
    · simp only [shardLoop, if_pos h, List.mem_cons] at hpc
      rcases hpc with hpc | hpc
      · subst hpc
        rw [← hacc]
        exact hbound hlen
      · exact ih [l] (lineBytes l) (part + 1)
          (by simp [sumLineBytes]) (by simp) pc hpc hlen
    · simp only [shardLoop, if_neg h] at hpc
      refine ih (chunk ++ [l]) (chunkBytes + lineBytes l) part
        ?_ ?_ pc hpc hlen
      · simp [sumLineBytes, hacc]
      · intro h2
        rcases Decidable.not_and_iff_or_not.mp h with hc | hgt
        · exfalso
          rw [not_ne_iff] at hc
          subst hc
          simp at h2
        · omega

/-- C7 counterexample: a single page whose serialized line is
`10 MiB + 1` bytes of UTF-8 is uploaded as a one-record shard whose
payload is `10485761 > 10 * 1024 * 1024` bytes, so the claimed bound
(`every shard ≤ 10 MiB, including a shard with a single oversized
record`) fails. -/
theorem shard_oversized_single_record :
    shardLoop maxShardBytes
        [String.mk (List.replicate 10485761 (Char.ofNat 97))] [] 0 0 =
        [(0, [String.mk (List.replicate 10485761 (Char.ofNat 97))])] ∧
      utf8Len (strJoin "\n"
          [String.mk (List.replicate 10485761 (Char.ofNat 97))]) =
        10485761 ∧
      maxShardBytes < 10485761 := by
  refine ⟨rfl, ?_, by norm_num [maxShardBytes]⟩
  · have h1 : strJoin "\n"
        [String.mk (List.replicate 10485761 (Char.ofNat 97))] =
        String.mk (List.replicate 10485761 (Char.ofNat 97)) := rfl
    have h2 : (String.mk (List.replicate 10485761 (Char.ofNat 97))).data =
        List.replicate 10485761 (Char.ofNat 97) := rfl
    have ha : Char.utf8Size (Char.ofNat 97) = 1 := rfl
    rw [h1, utf8Len, h2, List.map_replicate, ha, List.sum_replicate,
      smul_eq_mul, mul_one]

/-- C7 (amended): for any run, every uploaded shard that holds **two or
more** records has a UTF-8 payload of at most `10 * 1024 * 1024` bytes (a
shard holding a single record can exceed the limit when that one record
does), and the shard part indices are exactly `0, 1, ..., k` with no
gaps. -/
theorem shard_size_and_contiguity (dumps : PageRecord → String)
    (pages : List PageRecord) :
    ((shardLoop maxShardBytes (pages.map dumps) [] 0 0).map Prod.fst =
        List.range' 0
          (shardLoop maxShardBytes (pages.map dumps) [] 0 0).length) ∧
      ∀ pc ∈ shardLoop maxShardBytes (pages.map dumps) [] 0 0,
        2 ≤ pc.2.length →
          utf8Len (strJoin "\n" pc.2) ≤ maxShardBytes := by
  refine ⟨shardLoop_parts maxShardBytes (pages.map dumps) [] 0 0, ?_⟩
  intro pc hpc hlen
  have hsum := shardLoop_chunk_le maxShardBytes (pages.map dumps) [] 0 0
    (by simp [sumLineBytes]) (by simp) pc hpc hlen
  have hne : pc.2 ≠ [] := by
    intro hc
    rw [hc] at hlen
    simp at hlen
  have hjoin := utf8Len_joinNL pc.2 hne
  omega

/-- A blank PageRecord used by concrete worker scenarios. -/
def blankRec : PageRecord where
  unique_page_id := ""
  document_id := ""
  page_number := 0
  total_pages := 0
  text := ""
  ocr_required := false
  s3_key := ""
  file_type := ""

/-- Witness for `shard_size_and_contiguity`: two records serializing to
four bytes each land in one shard with part index `0` and a 9-byte
payload. -/
theorem shard_size_and_contiguity_witness :
    (0, ["aaaa", "aaaa"]) ∈
        shardLoop maxShardBytes
          (([blankRec, blankRec]).map (fun _ => "aaaa")) [] 0 0 ∧
      2 ≤ (["aaaa", "aaaa"] : List String).length ∧
      utf8Len (strJoin "\n" ["aaaa", "aaaa"]) ≤ maxShardBytes :=
  ⟨by decide, by decide,
    (shard_size_and_contiguity (fun _ => "aaaa") [blankRec, blankRec]).2
      (0, ["aaaa", "aaaa"]) (by decide) (by decide)⟩

/-! ## OCR queue protocol (`ocr_queue.enqueue_ocr_jobs`)

SQS and the wall clock are external: the embedding returns the list of
message bodies that `send_message` is called with (`sent_count` is its
length), and takes `submitted_at` as a parameter. -/

/-- One SQS message body built by `enqueue_ocr_jobs`. -/
structure OcrMessage where
  version : Nat
  exchange : String
  source_id : String
  s3_bucket : String
  s3_key : String
  broken_pages : List Int
  submitted_at : String
  metadata : Meta
  deriving DecidableEq

/-- Insert into a sorted list (helper for `sortInts`). -/
def insertSorted (x : Int) : List Int → List Int
  | [] => [x]
  | y :: ys => if x ≤ y then x :: y :: ys else y :: insertSorted x ys

/-- Python `sorted` on a list of ints. -/
def sortInts (xs : List Int) : List Int :=
  xs.foldr insertSorted []

/-- Canonicalization of broken_pages: positive pages, sorted,
duplicates collapsed. -/
def canonPages (pages : List Int) : List Int :=
  (sortInts (pages.filter (fun p => 0 < p))).dedup

/-- Embedding of `_chunk_pages`: slices of at most `size` pages, in order.  The fuel
argument (instantiated with the list length) only serves termination; for
`size ≥ 1` it is never exhausted, matching the Python `range` loop. -/
def chunkListAux (size : Nat) : Nat → List Int → List (List Int)
  | 0, _ => []
  | _, [] => []
  | Nat.succ fuel, xs => xs.take size :: chunkListAux size fuel (xs.drop size)

/-- Embedding of `_chunk_pages(pages, chunk_size)`. -/
def chunkList (size : Nat) (xs : List Int) : List (List Int) :=
  chunkListAux size xs.length xs

/-- The `metadata_payload` dict: the five allowed keys, truthy-filtered. -/
def allowedMetadata : Option Meta → Meta
  | some m =>
    { company_id := truthyOpt m.company_id
      company_name := truthyOpt m.company_name
      filing_date := truthyOpt m.filing_date
      filing_type := truthyOpt m.filing_type
      title := truthyOpt m.title }
  | none => {}

/-- Embedding of `ocr_queue.enqueue_ocr_jobs`: the messages published to SQS.
`enable_queue` is `ENABLE_OCR_QUEUE`, `queue_url` is `OCR_QUEUE_URL`, and
`chunk_size` is `OCR_PAGE_CHUNK_SIZE` (already validated `≥ 1`). -/
def enqueue_ocr_jobs (enable_queue : Bool) (queue_url : String)
    (chunk_size : Nat) (submitted_at : String)
    (exchange source_id s3_bucket s3_key : String)
    (broken_pages : List Int) (metadata : Option Meta) : List OcrMessage :=
  if broken_pages = [] then []
  else if ¬ enable_queue then []
  else if pyStrip queue_url = "" then []
  else if exchange = "" ∨ source_id = "" ∨ s3_bucket = "" ∨ s3_key = "" then
    []
  else
    let canonical := canonPages broken_pages
    (chunkList chunk_size canonical).map (fun pages_chunk =>
      { version := 1
        exchange := strToUpper exchange
        source_id := source_id
        s3_bucket := s3_bucket
        s3_key := s3_key
        broken_pages := pages_chunk
        submitted_at := submitted_at
        metadata := allowedMetadata metadata })

/-! ## Extraction worker (`main.process_batch`, `main.main`)

Collaborators of one batch run are an environment: the manifest stream
outcome, the downloader, the extraction engine
(`process_document_bytes`, returning its 3-tuple), the metadata lookup
and the dedup pre-check result.  Document bytes are opaque (`String`). -/

/-- One streamed manifest row `(bucket, key, row_metadata)`. -/
structure WRow where
  bucket : String
  key : String
  meta : Meta
  deriving DecidableEq

/-- The `stats` counters of `process_batch`. -/
structure Stats where
  files_processed : Nat := 0
  files_failed : Nat := 0
  files_skipped : Nat := 0
  pages_extracted : Nat := 0
  deriving DecidableEq

/-- Embedding of `Path(key).name`: the final path component. -/
def baseName (key : String) : String :=
  let parts := pySplit key sepSlash
  parts.getD (parts.length - 1) ""

/-- Index of the last dot in a character list, if any. -/
def lastDotIdx (cs : List Char) : Option Nat :=
  ((List.range cs.length).filter (fun i => cs.getD i ' ' = sepDot)).getLast?

/-- Embedding of `Path(name).stem` (pathlib): strip the last suffix when the dot is
neither the first character nor the last. -/
def pathStem (nm : String) : String :=
  match lastDotIdx nm.data with
  | some i =>
    if 0 < i ∧ i < nm.data.length - 1 then String.mk (nm.data.take i) else nm
  | none => nm

/-- Python rstrip of trailing dots. -/
def rstripDots (s : String) : String :=
  String.mk (s.data.reverse.dropWhile (fun c => c = sepDot)).reverse

/-- The source id of a key: the path stem with trailing dots
stripped. -/
def sourceIdOfKey (key : String) : String :=
  rstripDots (pathStem (baseName key))

/-- The mutable state threaded through the row loop of `process_batch`.
`ocr_published` records every OCR queue publish made by the loop; no
statement of `process_batch` appends to it because `main.py` neither
imports nor calls `enqueue_ocr_jobs`. -/
structure BatchState where
  stats : Stats := {}
  all_pages : List PageRecord := []
  processed_items : List (String × String × Nat) := []
  file_errors : List (String × String × String) := []
  dedup_failed : List (String × String) := []
  ocr_published : List OcrMessage := []
  deriving DecidableEq

/-- External collaborators of `process_batch`. -/
structure BatchEnv where
  manifest : Except String (List WRow)
  download : String → String → Option String
  engine : String → String → String → Option String → String → Meta →
    List PageRecord × Option String × List Int
  lookup : String → Option Meta
  already : List String

/-- Model of `pages, error = process_document_bytes(...)` at `main.py`
line 175:
the callee returns the 3-tuple `(pages, error, broken_pages)` (see
`process_pdf_bytes`), so binding its result to two targets raises
`ValueError`, which the per-row `except Exception` handler catches as a
`PROCESSING_ERROR`. -/
def unpack2 (_t : List PageRecord × Option String × List Int) :
    Except String (List PageRecord × Option String) :=
  Except.error "too many values to unpack (expected 2)"

/-- The body of the row loop of `process_batch` (lines 148-211). -/
def pbRow (env : BatchEnv) (exchange : Option String)
    (tracking dedup : Bool) (already : List String) (st : BatchState)
    (row : WRow) : BatchState :=
  let filename := baseName row.key
  let source_id := sourceIdOfKey row.key
  if source_id ∈ already then
    { st with stats := { st.stats with
        files_skipped := st.stats.files_skipped + 1 } }
  else
    match env.download row.bucket row.key with
    | none =>
      { st with
        stats := { st.stats with files_failed := st.stats.files_failed + 1 }
        file_errors :=
          if tracking then
            st.file_errors ++
              [(row.key, "DOWNLOAD_FAILED", "Failed to download file")]
          else st.file_errors
        dedup_failed :=
          if dedup ∧ (truthyOpt exchange).isSome then
            st.dedup_failed ++ [(source_id, row.key)]
          else st.dedup_failed }
    | some doc_bytes =>
      let file_metadata := match env.lookup source_id with
        | some m => metaUpdate row.meta m
        | none => row.meta
      match unpack2 (env.engine doc_bytes filename row.key exchange
          source_id file_metadata) with
      | .ok pe =>
        -- dead under the current source (`unpack2` always raises); kept to
        -- mirror lines 184-198
        let st1 :=
          if pe.2.isSome ∧ tracking then
            { st with file_errors := st.file_errors ++
                [(row.key, "EXTRACTION_FAILED", pe.2.getD "")] }
          else st
        { st1 with
          all_pages := st1.all_pages ++ pe.1
          stats := { st1.stats with
            files_processed := st1.stats.files_processed + 1
            pages_extracted := st1.stats.pages_extracted + pe.1.length }
          processed_items :=
            if dedup ∧ (truthyOpt exchange).isSome then
              st1.processed_items ++ [(source_id, row.key, pe.1.length)]
            else st1.processed_items }
      | .error msg =>
        { st with
          stats := { st.stats with
            files_failed := st.stats.files_failed + 1 }
          file_errors :=
            if tracking then
              st.file_errors ++ [(row.key, "PROCESSING_ERROR", msg)]
            else st.file_errors
          dedup_failed :=
            if dedup ∧ (truthyOpt exchange).isSome then
              st.dedup_failed ++ [(source_id, row.key)]
            else st.dedup_failed }

/-- Embedding of `main.process_batch`: a manifest fetch error is caught and the zero
stats returned (lines 126-136); otherwise the rows are folded through
`pbRow` and the accumulated pages are sharded for upload. -/
def processBatch (env : BatchEnv) (dumps : PageRecord → String)
    (exchange : Option String) (tracking dedup : Bool) :
    BatchState × List (Nat × List String) :=
  match env.manifest with
  | .error _ => ({}, [])
  | .ok rows =>
    let already :=
      if dedup ∧ (truthyOpt exchange).isSome then env.already else []
    let st := rows.foldl (pbRow env exchange tracking dedup already) {}
    let uploads :=
      if st.all_pages ≠ [] then
        shardLoop maxShardBytes (st.all_pages.map dumps) [] 0 0
      else []
    (st, uploads)

/-- The terminal bookkeeping of `main.main` (lines 274-294): the
`record_job_complete` status written when tracking is enabled, and the
process exit code. -/
structure MainOutcome where
  stats : Stats
  terminal : Option String
  exit_code : Nat
  deriving DecidableEq

/-- Embedding of `main.main` after a `process_batch` that returns normally: terminal
status is `FAILED` iff `files_failed > 0` and `files_processed == 0`,
else `SUCCEEDED`; exit code 1 under the same predicate. -/
def mainRun (env : BatchEnv) (dumps : PageRecord → String)
    (exchange : Option String) (tracking dedup : Bool) : MainOutcome :=
  let stats := (processBatch env dumps exchange tracking dedup).1.stats
  { stats := stats
    terminal :=
      if tracking then
        some (if 0 < stats.files_failed ∧ stats.files_processed = 0 then
          "FAILED" else "SUCCEEDED")
      else none
    exit_code :=
      if 0 < stats.files_failed ∧ stats.files_processed = 0 then 1 else 0 }

/-- The single manifest row of the C1 scenario. -/
def c1row : WRow where
  bucket := "b"
  key := "hkex/00001/f1.pdf"
  meta := {}

/-- Environment for the C1 scenario: a one-row manifest whose download
succeeds and whose engine call would return one page and no error. -/
def c1env : BatchEnv where
  manifest := Except.ok [c1row]
  download := fun _ _ => some "%PDF-bytes"
  engine := fun _ _ _ _ _ _ => ([blankRec], none, [])
  lookup := fun _ => none
  already := []

/-- The batch state `process_batch` actually reaches in the C1
scenario: the row failed with a recorded `PROCESSING_ERROR` and a dedup
`FAILED` write; nothing was processed, accumulated or published. -/
def c1afterState : BatchState where
  stats := { files_processed := 0
             files_failed := 1
             files_skipped := 0
             pages_extracted := 0 }
  all_pages := []
  processed_items := []
  file_errors := [("hkex/00001/f1.pdf", "PROCESSING_ERROR",
    "too many values to unpack (expected 2)")]
  dedup_failed := [("f1", "hkex/00001/f1.pdf")]
  ocr_published := []

/-- C1: evaluation of `process_batch` on a manifest row that is not
skipped and whose bytes download successfully.  The engine is invoked,
but binding its 3-tuple result to the two targets of
`pages, error = process_document_bytes(...)` raises `ValueError`, so the
row is recorded as a `PROCESSING_ERROR` and counted in `files_failed`:
`files_processed` and `pages_extracted` stay `0`, no pages are
accumulated, and no `EXTRACTION_FAILED` entry is written — contradicting
the claimed accounting. -/
theorem process_batch_unpack_failure :
    processBatch c1env (fun _ => "{}") (some "HKEX") true true =
      (c1afterState, []) := by
  decide

/-- The single manifest row of the C2 scenario. -/
def c2row : WRow where
  bucket := "b"
  key := "hkex/00001/f2.pdf"
  meta := {}

/-- Environment for the C2 scenario: the engine reports page 2 of the
downloaded PDF as broken. -/
def c2env : BatchEnv where
  manifest := Except.ok [c2row]
  download := fun _ _ => some "%PDF-bytes"
  engine := fun _ _ _ _ _ _ => ([blankRec], none, [2])
  lookup := fun _ => none
  already := []

/-- C2: even when the extraction of a downloaded PDF yields the non-empty
broken-page list `[2]`, `process_batch` publishes no OCR queue message
(`main.py` neither imports nor calls `enqueue_ocr_jobs`, and the
`broken_pages` component is discarded by the failed two-target unpack) —
although `enqueue_ocr_jobs` applied to the data of this document would have
published a message. -/
theorem process_batch_never_enqueues_ocr :
    (processBatch c2env (fun _ => "{}") (some "HKEX") true false).1.ocr_published
        = [] ∧
      (processBatch c2env (fun _ => "{}") (some "HKEX") true
          false).1.stats.files_failed = 1 ∧
      enqueue_ocr_jobs true "https://sqs.example/ocr" 10
          "2026-02-03T04:05:06Z" "HKEX" "f2" "b" "hkex/00001/f2.pdf" [2]
          none ≠ [] := by
  refine ⟨by decide, by decide, by decide⟩

/-- Environment for the C3 scenario: the manifest fetch raises. -/
def c3env : BatchEnv where
  manifest := Except.error "connection reset by peer"
  download := fun _ _ => none
  engine := fun _ _ _ _ _ _ => ([], none, [])
  lookup := fun _ => none
  already := []

/-- C3 counterexample: when the manifest fetch fails, `process_batch`
catches the error and returns zero stats, and `main` — whose FAILED
predicate `files_failed > 0 and files_processed == 0` is false on zero
stats — records the terminal tracking status `SUCCEEDED` and exits 0,
not the claimed `FAILED` / fatal outcome. -/
theorem manifest_failure_records_succeeded :
    mainRun c3env (fun _ => "{}") (some "HKEX") true true =
        { stats := {}, terminal := some "SUCCEEDED", exit_code := 0 } ∧
      (some "SUCCEEDED" : Option String) ≠ some "FAILED" := by
  refine ⟨by decide, by decide⟩

/-- C3 (amended): a manifest fetch failure is **not** fatal to the
worker: `process_batch` swallows it and returns zero stats with nothing
uploaded, and — job tracking enabled — the terminal job-tracking entry is
`SUCCEEDED` with exit code 0. -/
theorem manifest_failure_zero_stats_succeeded (env : BatchEnv)
    (dumps : PageRecord → String) (exchange : Option String) (dedup : Bool)
    (e : String) (h : env.manifest = Except.error e) :
    processBatch env dumps exchange true dedup = ({}, []) ∧
      mainRun env dumps exchange true dedup =
        { stats := {}, terminal := some "SUCCEEDED", exit_code := 0 } := by
  have hp : processBatch env dumps exchange true dedup = ({}, []) := by
    unfold processBatch
    rw [h]
  refine ⟨hp, ?_⟩
  unfold mainRun
  rw [hp]
  rfl

/-- Witness for `manifest_failure_zero_stats_succeeded` at the concrete
failing environment. -/
theorem manifest_failure_zero_stats_succeeded_witness :
    c3env.manifest = Except.error "connection reset by peer" ∧
      processBatch c3env (fun _ => "{}") none true false = ({}, []) ∧
      mainRun c3env (fun _ => "{}") none true false =
        { stats := {}, terminal := some "SUCCEEDED", exit_code := 0 } :=
  ⟨rfl,
    (manifest_failure_zero_stats_succeeded c3env (fun _ => "{}") none false
      "connection reset by peer" rfl).1,
    (manifest_failure_zero_stats_succeeded c3env (fun _ => "{}") none false
      "connection reset by peer" rfl).2⟩

/-! ## OCR worker (`ocr_worker._build_quickwit_patch_key`,
`ocr_worker._process_job`, `ocr_worker.main`)

The object store is modelled by the list of object keys that exist
(`put` = add the key if absent: overwriting a key creates no new
object).  SHA-1 (`hashlib`) is external, a parameter
`sha1Hex : String → String`.  In this pure model the S3 and SQS calls
succeed, so `_process_job` returns normally and the message-loop body
deletes the message; its `raise` paths fire only on upload failures. -/

/-- A parsed OCR job (`ocr_worker.OcrJob`). -/
structure OcrJob where
  exchange : String
  source_id : String
  s3_bucket : String
  s3_key : String
  broken_pages : List Int
  metadata : Meta
  deriving DecidableEq

/-- Python slice `s[:n]`. -/
def strTake (s : String) (n : Nat) : String :=
  String.mk (s.data.take n)

/-- Embedding of `ocr_worker._build_quickwit_patch_key`: jobs coming from `_parse_job`
always have non-empty `broken_pages`; the `headD`/`getLastD` defaults
cover only the empty case on which the Python indexing would raise. -/
def buildQuickwitPatchKey (sha1Hex : String → String) (job : OcrJob)
    (outPfx : String) : String :=
  let pages_joined := strJoin "," (job.broken_pages.map toString)
  let pages_digest := strTake (sha1Hex pages_joined) 12
  outPfx ++ "/" ++ strToLower job.exchange ++ "/ocr-patches/" ++
    job.source_id ++ "/pages_" ++ toString (job.broken_pages.headD 0) ++
    "_" ++ toString (job.broken_pages.getLastD 0) ++ "_" ++ pages_digest ++
    ".jsonl"

/-- The per-page bounding-box artifact key
`ocr-bboxes/{exchange_lower}/{source_id}/page_{N}.json`. -/
def ocrBBoxKey (job : OcrJob) (page_number : Int) : String :=
  "ocr-bboxes/" ++ strToLower job.exchange ++ "/" ++ job.source_id ++
    "/page_" ++ toString page_number ++ ".json"

/-- S3 `put_object` on the key-set model: the key exists afterwards; a
put to an existing key creates no new object. -/
def s3Put (store : List String) (key : String) : List String :=
  if key ∈ store then store else store ++ [key]

/-- The bbox uploads of the `_process_job` page loop, in page order. -/
def putBBoxes (job : OcrJob) (pages : List Int) (store : List String) :
    List String :=
  pages.foldl (fun acc p => s3Put acc (ocrBBoxKey job p)) store

/-- Embedding of `ocr_worker._process_job` over the key-set model: skip out-of-range
pages, upload one bbox artifact per processed page, then upload the
Quickwit patch at its deterministic key unless an object already exists
there (or no page was processed).  Returns
`(pages processed, patch key, store after)`. -/
def processJob (sha1Hex : String → String) (pageCount : Nat)
    (outPfx : String) (job : OcrJob) (store : List String) :
    Nat × String × List String :=
  let inRange := job.broken_pages.filter
    (fun p => ¬ (p < 1 ∨ p > (pageCount : Int)))
  let store1 := putBBoxes job inRange store
  let patch_key := buildQuickwitPatchKey sha1Hex job outPfx
  let store2 :=
    if inRange ≠ [] then
      if patch_key ∈ store1 then store1 else s3Put store1 patch_key
    else store1
  (inRange.length, patch_key, store2)

/-- One message iteration of `ocr_worker.main` after a successful
`_parse_job`: `_process_job` runs, and on normal return the message is
deleted. -/
structure OcrStepResult where
  deleted : Bool
  processed : Nat
  patch_key : String
  store : List String
  deriving DecidableEq

/-- See `OcrStepResult`. -/
def ocrWorkerStep (sha1Hex : String → String) (pageCount : Nat)
    (outPfx : String) (job : OcrJob) (store : List String) :
    OcrStepResult :=
  let r := processJob sha1Hex pageCount outPfx job store
  { deleted := true, processed := r.1, patch_key := r.2.1,
    store := r.2.2 }

theorem mem_s3Put {x : String} (store : List String) (k : String)
    (h : x ∈ store) : x ∈ s3Put store k := by
  unfold s3Put
  split
  · exact h
  · exact List.mem_append_left _ h

theorem self_mem_s3Put (store : List String) (k : String) :
    k ∈ s3Put store k := by
  unfold s3Put
  split
  · assumption
  · simp

theorem s3Put_eq_of_mem {store : List String} {k : String}
    (h : k ∈ store) : s3Put store k = store :=
  if_pos h

theorem mem_putBBoxes {x : String} (job : OcrJob) (pages : List Int) :
    ∀ store, x ∈ store → x ∈ putBBoxes job pages store := by
  induction pages with
  | nil => intro store h; exact h
  | cons p rest ih =>
    intro store h
    exact ih (s3Put store (ocrBBoxKey job p)) (mem_s3Put store _ h)

theorem putBBoxes_contains (job : OcrJob) (pages : List Int) :
    ∀ store, ∀ p ∈ pages, ocrBBoxKey job p ∈ putBBoxes job pages store := by
  induction pages with
  | nil => intro store p hp; simp at hp
  | cons q rest ih =>
    intro store p hp
    rw [List.mem_cons] at hp
    rcases hp with hp | hp
    · subst hp
      exact mem_putBBoxes job rest _ (self_mem_s3Put store _)
    · exact ih _ p hp

theorem putBBoxes_of_all_mem (job : OcrJob) (pages : List Int) :
    ∀ store, (∀ p ∈ pages, ocrBBoxKey job p ∈ store) →
      putBBoxes job pages store = store := by
  induction pages with
  | nil => intro store _; rfl
  | cons q rest ih =>
    intro store h
    have hq : ocrBBoxKey job q ∈ store := h q (by simp)
    show putBBoxes job rest (s3Put store (ocrBBoxKey job q)) = store
    rw [s3Put_eq_of_mem hq]
    exact ih store (fun p hp => h p (List.mem_cons_of_mem _ hp))

/-- C6: the OCR patch key depends on nothing but
`(output_prefix, exchange, source_id, broken_pages)` — two jobs agreeing
on those fields get the identical key — and consuming the same job a
second time after a successful first consumption creates no new object:
the existence check at the deterministic patch key skips the upload, and
re-putting the bbox artifacts hits only existing keys. -/
theorem patch_key_pure_and_consume_idempotent (sha1Hex : String → String)
    (outPfx : String) (j1 j2 : OcrJob) (pageCount : Nat) (job : OcrJob)
    (store : List String)
    (hex : j1.exchange = j2.exchange) (hsid : j1.source_id = j2.source_id)
    (hbp : j1.broken_pages = j2.broken_pages) :
    buildQuickwitPatchKey sha1Hex j1 outPfx =
        buildQuickwitPatchKey sha1Hex j2 outPfx ∧
      processJob sha1Hex pageCount outPfx job
          (processJob sha1Hex pageCount outPfx job store).2.2 =
        processJob sha1Hex pageCount outPfx job store := by
  constructor
  · unfold buildQuickwitPatchKey
    rw [hex, hsid, hbp]
  · unfold processJob
    dsimp only
    set inRange := job.broken_pages.filter
      (fun p => ¬ (p < 1 ∨ p > (pageCount : Int))) with hir
    set patch_key := buildQuickwitPatchKey sha1Hex job outPfx with hpk
    by_cases hempty : inRange = []
    · rw [hempty]
      simp [putBBoxes]
    · rw [if_pos hempty, if_pos hempty]
      set store1 := putBBoxes job inRange store with hs1
      have hboxes1 : ∀ p ∈ inRange, ocrBBoxKey job p ∈ store1 :=
        fun p hp => putBBoxes_contains job inRange store p hp
      by_cases hmem : patch_key ∈ store1
      · rw [if_pos hmem]
        have hs2 : putBBoxes job inRange store1 = store1 :=
          putBBoxes_of_all_mem job inRange store1 hboxes1
        rw [hs2, if_pos hmem]
      · rw [if_neg hmem]
        have hboxes2 : ∀ p ∈ inRange,
            ocrBBoxKey job p ∈ s3Put store1 patch_key :=
          fun p hp => mem_s3Put store1 patch_key (hboxes1 p hp)
        have hs2 : putBBoxes job inRange (s3Put store1 patch_key) =
            s3Put store1 patch_key :=
          putBBoxes_of_all_mem job inRange _ hboxes2
        rw [hs2, if_pos (self_mem_s3Put store1 patch_key)]

/-- The concrete job for the C6 witness. -/
def c6job : OcrJob where
  exchange := "HKEX"
  source_id := "123"
  s3_bucket := "pdfs-bucket"
  s3_key := "hkex/00001/report.pdf"
  broken_pages := [2, 4]
  metadata := {}

/-- Witness for `patch_key_pure_and_consume_idempotent` at a concrete
job, digest function, page count and empty store. -/
theorem patch_key_pure_and_consume_idempotent_witness :
    c6job.exchange = c6job.exchange ∧ c6job.source_id = c6job.source_id ∧
      c6job.broken_pages = c6job.broken_pages ∧
      (buildQuickwitPatchKey (fun _ => "abcdef0123456789abcdef") c6job
          "processed" =
        buildQuickwitPatchKey (fun _ => "abcdef0123456789abcdef") c6job
          "processed" ∧
      processJob (fun _ => "abcdef0123456789abcdef") 6 "processed" c6job
          (processJob (fun _ => "abcdef0123456789abcdef") 6 "processed"
            c6job []).2.2 =
        processJob (fun _ => "abcdef0123456789abcdef") 6 "processed" c6job
          []) :=
  ⟨rfl, rfl, rfl,
    patch_key_pure_and_consume_idempotent (fun _ => "abcdef0123456789abcdef")
      "processed" c6job c6job 6 c6job [] rfl rfl rfl⟩

/-- C10: a syntactically valid job whose pages are all out of range for
the downloaded document is processed "successfully" with zero pages: no
bbox artifact and no patch object is uploaded (the store is unchanged),
and the message-loop body deletes the queue message, so the job silently
produces no output and is never redelivered. -/
theorem ocr_out_of_range_job_silent (sha1Hex : String → String)
    (pageCount : Nat) (outPfx : String) (job : OcrJob)
    (store : List String)
    (h : ∀ p ∈ job.broken_pages, p < 1 ∨ p > (pageCount : Int)) :
    ocrWorkerStep sha1Hex pageCount outPfx job store =
      { deleted := true, processed := 0,
        patch_key := buildQuickwitPatchKey sha1Hex job outPfx,
        store := store } := by
  have hfilter : job.broken_pages.filter
      (fun p => ¬ (p < 1 ∨ p > (pageCount : Int))) = [] := by
    rw [List.filter_eq_nil_iff]
    intro p hp
    have hh := h p hp
    simp
    omega
  unfold ocrWorkerStep processJob
  rw [hfilter]
  simp [putBBoxes]

/-- The concrete job for the C10 witness: both pages are beyond the
3-page document. -/
def c10job : OcrJob where
  exchange := "DART"
  source_id := "20240101000001"
  s3_bucket := "pdfs-bucket"
  s3_key := "dart/00555/doc.pdf"
  broken_pages := [7, 8]
  metadata := {}

/-- Witness for `ocr_out_of_range_job_silent` at a concrete job and
store. -/
theorem ocr_out_of_range_job_silent_witness :
    (∀ p ∈ c10job.broken_pages, p < 1 ∨ p > ((3 : Nat) : Int)) ∧
      ocrWorkerStep (fun _ => "abcdef0123456789abcdef") 3 "processed"
          c10job ["existing-object"] =
        { deleted := true, processed := 0,
          patch_key := buildQuickwitPatchKey
            (fun _ => "abcdef0123456789abcdef") c10job "processed",
          store := ["existing-object"] } :=
  ⟨by decide,
    ocr_out_of_range_job_silent (fun _ => "abcdef0123456789abcdef") 3
      "processed" c10job ["existing-object"] (by decide)⟩

end AsiaFilings
